import Mathlib

/-!
A shallow embedding of the core of the `arcr-item-search` repository
(an item-lookup web app for Arc Raiders): the data model (`src/types.ts`),
the reference-index builder and query matcher (`src/lib/searchUtils.ts`),
and the data-loading pipeline around `src/lib/dataLoader.ts` (resilient
fetch, TTL cache, dataset validation, `loadAllData`).

JavaScript objects used as string-keyed maps (`quantityBySource`, the
`Map` returned by `buildReferenceCount`) are embedded as association
lists with JS insert-or-overwrite semantics.  JS `number` fields that the
verified code never computes with (`value`, `weightKg`) are embedded as
`Rat`; requirement quantities, levels and counts, which the datasets hold
as non-negative integers, are embedded as `Nat`.  Strings are Lean
`String`s (lists of characters), with `toLowerCase`, `trim` and
`includes` spelled out structurally so that everything evaluates in the
kernel.
-/

namespace Arcr

/-- JS `String.prototype.toLowerCase`, character by character. -/
def strToLower (s : String) : String :=
  String.mk (s.data.map Char.toLower)

/-- Whether the character list `p` starts the character list `s`. -/
def charsStartWith : List Char → List Char → Bool
  | [], _ => true
  | _ :: _, [] => false
  | a :: p, b :: s => a == b && charsStartWith p s

/-- Whether the character list `p` occurs contiguously inside `s`. -/
def charsContain (p : List Char) : List Char → Bool
  | [] => charsStartWith p []
  | b :: s => charsStartWith p (b :: s) || charsContain p s

/-- JS `s.includes(p)`: substring containment. -/
def strIncludes (s p : String) : Bool :=
  charsContain p.data s.data

/-- JS `String.prototype.trim`: strip whitespace from both ends. -/
def strTrim (s : String) : String :=
  String.mk (((s.data.dropWhile Char.isWhitespace).reverse.dropWhile
    Char.isWhitespace).reverse)

/-- Association-list lookup: first value stored under key `k`. -/
def getKey? {β : Type} : List (String × β) → String → Option β
  | [], _ => none
  | (k', v) :: rest, k => if k' = k then some v else getKey? rest k

/-- JS insert-or-overwrite (`map.set(k, v)` / `{...obj, [k]: v}`): an
existing key keeps its position and gets the new value, a new key is
appended. -/
def setKey {β : Type} : List (String × β) → String → β → List (String × β)
  | [], k, v => [(k, v)]
  | (k', v') :: rest, k, v =>
    if k' = k then (k, v) :: rest else (k', v') :: setKey rest k v

/-- Localized text from `src/types.ts` (`LocalizedString`): English is
required, the other language fields are optional and irrelevant to the
core, so they are bundled as a code/text list. -/
structure LocalizedString where
  en : String
  other : List (String × String)
  deriving DecidableEq, Repr

/-- Structure `RequirementItem` from `src/types.ts`: a `(itemId, quantity)` pair. -/
structure RequirementItem where
  itemId : String
  quantity : Nat
  deriving DecidableEq, Repr

/-- Structure `Item` from `src/types.ts`. -/
structure Item where
  id : String
  name : LocalizedString
  description : LocalizedString
  type' : String
  rarity : String
  value : Rat
  weightKg : Rat
  stackSize : Nat
  imageFilename : String
  updatedAt : Option String
  recyclesInto : Option (List (String × Nat))
  salvagesInto : Option (List (String × Nat))
  foundIn : Option String
  recipe : Option (List (String × Nat))
  craftBench : Option String
  deriving DecidableEq, Repr

/-- Structure `HideoutModuleLevel` from `src/types.ts`. -/
structure HideoutModuleLevel where
  level : Nat
  requirementItemIds : List RequirementItem
  otherRequirements : Option (List String)
  deriving DecidableEq, Repr

/-- Structure `HideoutModule` from `src/types.ts`. -/
structure HideoutModule where
  id : String
  name : LocalizedString
  maxLevel : Nat
  levels : List HideoutModuleLevel
  deriving DecidableEq, Repr

/-- A project phase name is either a plain string or a localized mapping
(spec §3 and the dataLoader tests exercise both). -/
inductive PhaseName where
  | plain (s : String)
  | localized (l : LocalizedString)
  deriving DecidableEq, Repr

/-- Display form of a phase name: the plain string, or its `en` field. -/
def PhaseName.display : PhaseName → String
  | .plain s => s
  | .localized l => l.en

/-- Structure `ProjectPhase` from `src/types.ts`, with the string-or-localized
`name` made explicit. -/
structure ProjectPhase where
  phase : Nat
  name : PhaseName
  description : Option String
  requirementItemIds : List RequirementItem
  deriving DecidableEq, Repr

/-- Structure `Project` from `src/types.ts`. -/
structure Project where
  id : String
  name : LocalizedString
  description : LocalizedString
  phases : List ProjectPhase
  deriving DecidableEq, Repr

/-- Structure `Quest` from `src/types.ts`; `requiredItemIds` is optional. -/
structure Quest where
  id : String
  name : LocalizedString
  description : LocalizedString
  trader : String
  objectives : List LocalizedString
  requiredItemIds : Option (List RequirementItem)
  rewardItemIds : Option (List RequirementItem)
  xp : Nat
  previousQuestIds : List String
  nextQuestIds : List String
  deriving DecidableEq, Repr

/-- Structure `ReferenceDetails` from `src/types.ts`; `quantityBySource` is a JS
object, embedded as an association list. -/
structure ReferenceDetails where
  count : Nat
  sources : List String
  totalQuantity : Nat
  quantityBySource : List (String × Nat)
  deriving DecidableEq, Repr

/-- The `{ count: 0, sources: [], totalQuantity: 0, quantityBySource: {} }`
default used by `buildReferenceCount` when an item id is not yet mapped. -/
def emptyDetails : ReferenceDetails :=
  { count := 0, sources := [], totalQuantity := 0, quantityBySource := [] }

/-- The `Map<string, ReferenceDetails>` built by `buildReferenceCount`. -/
def RefMap : Type := List (String × ReferenceDetails)

/-- Module source label, `"<module.name.en> (Level <level>)"`. -/
def moduleLabel (md : HideoutModule) (lv : HideoutModuleLevel) : String :=
  md.name.en ++ " (Level " ++ toString lv.level ++ ")"

/-- Project source label, `"<project.name.en> (<phase.name>)"`. -/
def projectLabel (p : Project) (ph : ProjectPhase) : String :=
  p.name.en ++ " (" ++ ph.name.display ++ ")"

/-- Quest source label, `"<quest.name.en> (Quest)"`. -/
def questLabel (q : Quest) : String :=
  q.name.en ++ " (Quest)"

/-- The loop body shared by all three traversals of `buildReferenceCount`
(`src/lib/searchUtils.ts`): read the current entry or the zero default,
then store it back with count incremented, the label appended to
`sources`, the quantity added to `totalQuantity`, and the label written
into `quantityBySource` by JS object spread (overwriting any previous
quantity recorded under the same label). -/
def addOccurrence (m : RefMap) (itemId sourceName : String) (qty : Nat) : RefMap :=
  let current := (getKey? m itemId).getD emptyDetails
  setKey m itemId
    { count := current.count + 1
      sources := current.sources ++ [sourceName]
      totalQuantity := current.totalQuantity + qty
      quantityBySource := setKey current.quantityBySource sourceName qty }

/-- Modelled from the spec: the quest loop and the `.en` resolution of
localized display names in `buildReferenceCount(hideoutModules,
projects, quests)` belong to the final `searchUtils.ts`, which is
exercised by the test suite and called by `App.svelte` but absent from
the snapshot (whose copy of the file predates quests); per spec §4.4,
after all modules and all projects, every quest's `requiredItemIds` is
traversed, quests without required items are skipped, and each
requirement is recorded under the label `"<quest.name.en> (Quest)"`.
The module and project loops are embedded from the copy in
`src/src/lib/searchUtils.ts`. -/
def buildReferenceCount (hideoutModules : List HideoutModule)
    (projects : List Project) (quests : List Quest) : RefMap :=
  let m1 := hideoutModules.foldl (fun acc md =>
    md.levels.foldl (fun acc lv =>
      lv.requirementItemIds.foldl (fun acc req =>
        addOccurrence acc req.itemId (moduleLabel md lv) req.quantity) acc) acc) []
  let m2 := projects.foldl (fun acc p =>
    p.phases.foldl (fun acc ph =>
      ph.requirementItemIds.foldl (fun acc req =>
        addOccurrence acc req.itemId (projectLabel p ph) req.quantity) acc) acc) m1
  quests.foldl (fun acc q =>
    (q.requiredItemIds.getD []).foldl (fun acc req =>
      addOccurrence acc req.itemId (questLabel q) req.quantity) acc) m2

/-- One requirement occurrence seen by the traversal: the item id, the
resolved source label, and the required quantity. -/
def Occ : Type := String × String × Nat

/-- All occurrences in the fixed traversal order of spec §4.4: every
level of every module, then every phase of every project, then every
quest's required items (a quest with no required items contributes
nothing). -/
def occurrences (hideoutModules : List HideoutModule)
    (projects : List Project) (quests : List Quest) : List Occ :=
  (hideoutModules.flatMap fun md => md.levels.flatMap fun lv =>
    lv.requirementItemIds.map fun req =>
      (req.itemId, moduleLabel md lv, req.quantity))
  ++ (projects.flatMap fun p => p.phases.flatMap fun ph =>
    ph.requirementItemIds.map fun req =>
      (req.itemId, projectLabel p ph, req.quantity))
  ++ (quests.flatMap fun q =>
    (q.requiredItemIds.getD []).map fun req =>
      (req.itemId, questLabel q, req.quantity))

/-- The `(label, quantity)` pairs among `os` that belong to item `i`,
in traversal order. -/
def occsFor (i : String) (os : List Occ) : List (String × Nat) :=
  os.filterMap fun o => if o.1 = i then some o.2 else none

/-- The reference entry determined by an item's occurrence list: one
count and one `sources` element per occurrence, the total of all
quantities, and the per-label map built by repeated insert-or-overwrite. -/
def detailsOfOccs (ps : List (String × Nat)) : ReferenceDetails :=
  { count := ps.length
    sources := ps.map Prod.fst
    totalQuantity := (ps.map Prod.snd).sum
    quantityBySource := ps.foldl (fun m p => setKey m p.1 p.2) [] }

/-- The entry stored for an occurrence list: nothing for an item never
referenced, otherwise `detailsOfOccs`. -/
def entryFor (ps : List (String × Nat)) : Option ReferenceDetails :=
  if ps.isEmpty then none else some (detailsOfOccs ps)

theorem getKey?_setKey_self {β : Type} (m : List (String × β)) (k : String) (v : β) :
    getKey? (setKey m k v) k = some v := by
  induction m with
  | nil => simp [setKey, getKey?]
  | cons hd tl ih =>
    by_cases h : hd.1 = k <;> simp [setKey, getKey?, h, ih]

theorem getKey?_setKey_ne {β : Type} (m : List (String × β)) (k k' : String) (v : β)
    (h : k ≠ k') : getKey? (setKey m k v) k' = getKey? m k' := by
  induction m with
  | nil => simp [setKey, getKey?, h]
  | cons hd tl ih =>
    by_cases h1 : hd.1 = k
    · simp [setKey, getKey?, h1, h]
    · by_cases h2 : hd.1 = k' <;> simp [setKey, getKey?, h1, h2, ih, Ne.symm h]

theorem foldl_flatMap_eq {α β γ : Type} (l : List α) (f : α → List β)
    (g : γ → β → γ) (init : γ) :
    (l.flatMap f).foldl g init = l.foldl (fun acc a => (f a).foldl g acc) init := by
  induction l generalizing init with
  | nil => rfl
  | cons a tl ih => simp [List.flatMap_cons, List.foldl_append, ih]

/-- One step of the traversal loop, on packed occurrences. -/
def occStep (m : RefMap) (o : Occ) : RefMap :=
  addOccurrence m o.1 o.2.1 o.2.2

theorem buildReferenceCount_eq_foldl (hideoutModules : List HideoutModule)
    (projects : List Project) (quests : List Quest) :
    buildReferenceCount hideoutModules projects quests
      = (occurrences hideoutModules projects quests).foldl occStep [] := by
  simp only [buildReferenceCount, occurrences, occStep, List.foldl_append,
    foldl_flatMap_eq, List.foldl_map]
  rfl

theorem detailsOfOccs_append_single (ps : List (String × Nat)) (p : String × Nat) :
    detailsOfOccs (ps ++ [p]) =
      { count := (detailsOfOccs ps).count + 1
        sources := (detailsOfOccs ps).sources ++ [p.1]
        totalQuantity := (detailsOfOccs ps).totalQuantity + p.2
        quantityBySource := setKey (detailsOfOccs ps).quantityBySource p.1 p.2 } := by
  simp [detailsOfOccs, List.foldl_append, List.sum_append]

theorem entryFor_getD (ps : List (String × Nat)) :
    (entryFor ps).getD emptyDetails = detailsOfOccs ps := by
  cases ps <;> simp [entryFor, detailsOfOccs, emptyDetails]

theorem occsFor_append_single (i : String) (os : List Occ) (o : Occ) :
    occsFor i (os ++ [o]) = occsFor i os ++ (if o.1 = i then [o.2] else []) := by
  by_cases h : o.1 = i <;> simp [occsFor, List.filterMap_append, h]

theorem addOccurrence_rep (m : RefMap) (os0 : List Occ)
    (h : ∀ j, getKey? m j = entryFor (occsFor j os0)) (o : Occ) :
    ∀ j, getKey? (occStep m o) j = entryFor (occsFor j (os0 ++ [o])) := by
  intro j
  rw [occsFor_append_single]
  by_cases hij : o.1 = j
  · subst hij
    rw [if_pos rfl]
    show getKey? (setKey m o.1 _) o.1 = _
    rw [getKey?_setKey_self, h o.1, entryFor_getD]
    have hne : (occsFor o.1 os0 ++ [o.2]).isEmpty = false := by
      simp
    rw [entryFor, hne, if_neg (by simp), detailsOfOccs_append_single]
  · rw [if_neg hij]
    show getKey? (setKey m o.1 _) j = _
    rw [getKey?_setKey_ne _ _ _ _ hij, h j, List.append_nil]

theorem foldl_occStep_rep (os : List Occ) (os0 : List Occ) (m : RefMap)
    (h : ∀ j, getKey? m j = entryFor (occsFor j os0)) :
    ∀ j, getKey? (os.foldl occStep m) j = entryFor (occsFor j (os0 ++ os)) := by
  induction os generalizing os0 m with
  | nil => simpa using h
  | cons o rest ih =>
    intro j
    have h' := addOccurrence_rep m os0 h o
    have := ih (os0 ++ [o]) (occStep m o) h' j
    simpa using this

/-- Every lookup in the built reference map is fully determined by the
flat list of occurrences, taken in the fixed traversal order. -/
theorem getKey?_buildReferenceCount (hideoutModules : List HideoutModule)
    (projects : List Project) (quests : List Quest) (i : String) :
    getKey? (buildReferenceCount hideoutModules projects quests) i
      = entryFor (occsFor i (occurrences hideoutModules projects quests)) := by
  rw [buildReferenceCount_eq_foldl]
  have h0 : ∀ j, getKey? ([] : RefMap) j = entryFor (occsFor j ([] : List Occ)) := by
    intro j; simp [getKey?, occsFor, entryFor]
  simpa using foldl_occStep_rep _ [] [] h0 i

theorem setKey_eq_append {β : Type} (m : List (String × β)) (k : String) (v : β)
    (h : k ∉ m.map Prod.fst) : setKey m k v = m ++ [(k, v)] := by
  induction m with
  | nil => rfl
  | cons hd tl ih =>
    have h1 : hd.1 ≠ k := fun e => h (by simp [e])
    have h2 : k ∉ tl.map Prod.fst := fun e => h (by simp [e])
    simp [setKey, h1, ih h2]

theorem foldl_setKey_of_nodup (ps : List (String × Nat)) :
    ∀ m : List (String × Nat), (ps.map Prod.fst).Nodup →
    (∀ p ∈ ps, p.1 ∉ m.map Prod.fst) →
    ps.foldl (fun m p => setKey m p.1 p.2) m = m ++ ps := by
  induction ps with
  | nil => intro m _ _; simp
  | cons p rest ih =>
    intro m hnd hdisj
    have hp : p.1 ∉ m.map Prod.fst := hdisj p (List.mem_cons_self p rest)
    have hnds : p.1 ∉ rest.map Prod.fst ∧ (rest.map Prod.fst).Nodup := by
      simpa [List.nodup_cons] using hnd
    have hdisj' : ∀ r ∈ rest, r.1 ∉ (m ++ [p]).map Prod.fst := by
      intro r hr
      have hrm : r.1 ∉ m.map Prod.fst := hdisj r (List.mem_cons_of_mem p hr)
      have hrp : r.1 ≠ p.1 := fun e => hnds.1 (e ▸ List.mem_map_of_mem Prod.fst hr)
      simp [hrm, hrp]
    rw [List.foldl_cons, setKey_eq_append m p.1 p.2 hp, ih (m ++ [p]) hnds.2 hdisj']
    simp

theorem mem_keys_setKey {β : Type} (m : List (String × β)) (k : String) (v : β)
    (l : String) :
    l ∈ (setKey m k v).map Prod.fst ↔ l ∈ m.map Prod.fst ∨ l = k := by
  induction m with
  | nil => simp [setKey]
  | cons hd tl ih =>
    by_cases h : hd.1 = k <;> simp [setKey, h, ih] <;> tauto

theorem mem_keys_foldl_setKey (ps : List (String × Nat)) (m : List (String × Nat))
    (l : String) :
    l ∈ (ps.foldl (fun m p => setKey m p.1 p.2) m).map Prod.fst
      ↔ l ∈ m.map Prod.fst ∨ l ∈ ps.map Prod.fst := by
  induction ps generalizing m with
  | nil => simp
  | cons p rest ih =>
    rw [List.foldl_cons, ih, mem_keys_setKey]
    simp only [List.map_cons, List.mem_cons]
    tauto

theorem entryFor_eq_some {ps : List (String × Nat)} {d : ReferenceDetails}
    (h : entryFor ps = some d) : ps ≠ [] ∧ d = detailsOfOccs ps := by
  unfold entryFor at h
  by_cases he : ps.isEmpty
  · rw [if_pos he] at h; exact absurd h (by simp)
  · rw [if_neg he] at h
    exact ⟨fun e => he (by simp [e]), (Option.some_inj.mp h).symm⟩

/-- The index entry produced for `item-1` by the claim C8 scenario: a
module named Storage whose two levels require it with quantities 5
and 10. -/
def storageModule : HideoutModule :=
  { id := "module-1", name := { en := "Storage", other := [] }, maxLevel := 2
    levels :=
      [ { level := 1, requirementItemIds := [⟨"item-1", 5⟩], otherRequirements := none }
      , { level := 2, requirementItemIds := [⟨"item-1", 10⟩], otherRequirements := none } ] }

/-- A module whose single level requires the same item twice, so both
requirement occurrences resolve to the identical source label
`"Storage (Level 1)"`. -/
def dupLabelModule : HideoutModule :=
  { id := "module-1", name := { en := "Storage", other := [] }, maxLevel := 1
    levels :=
      [ { level := 1, requirementItemIds := [⟨"item-1", 5⟩, ⟨"item-1", 10⟩]
          otherRequirements := none } ] }

/-- Claim C1: for every map returned by `buildReferenceCount` and every
stored entry, `count` equals the length of `sources`, and — the part the
claim overstates — `totalQuantity` equals the sum of the
`quantityBySource` values.  As amended: the count/sources equality is
unconditional, while the quantity equality holds whenever the entry's
source labels are pairwise distinct; a repeated identical label is
overwritten in `quantityBySource` by the JS object spread, so the sum can
fall short of `totalQuantity`. -/
theorem buildReferenceCount_entry_invariants (hideoutModules : List HideoutModule)
    (projects : List Project) (quests : List Quest) (i : String)
    (d : ReferenceDetails)
    (h : getKey? (buildReferenceCount hideoutModules projects quests) i = some d) :
    d.count = d.sources.length ∧
      (d.sources.Nodup →
        d.totalQuantity = (d.quantityBySource.map Prod.snd).sum) := by
  rw [getKey?_buildReferenceCount] at h
  obtain ⟨-, hd⟩ := entryFor_eq_some h
  subst hd
  refine ⟨by simp [detailsOfOccs], fun hnd => ?_⟩
  have hq : (occsFor i (occurrences hideoutModules projects quests)).foldl
      (fun m p => setKey m p.1 p.2) []
        = occsFor i (occurrences hideoutModules projects quests) := by
    have := foldl_setKey_of_nodup (occsFor i (occurrences hideoutModules projects quests))
      [] (by simpa [detailsOfOccs] using hnd) (by simp)
    simpa using this
  simp [detailsOfOccs, hq]

/-- Claim C1, counterexample to the claim as stated: with two
requirement occurrences of `item-1` under the same label
`"Storage (Level 1)"` (quantities 5 and 10), the stored entry has
`totalQuantity = 15` but its `quantityBySource` holds only the
overwritten `10`, so the sum of values is 10, not 15. -/
theorem buildReferenceCount_totalQuantity_claim_false :
    ¬ (∀ d : ReferenceDetails,
        getKey? (buildReferenceCount [dupLabelModule] [] []) "item-1" = some d →
          d.totalQuantity = (d.quantityBySource.map Prod.snd).sum) := by
  intro hclaim
  have h := hclaim
    { count := 2, sources := ["Storage (Level 1)", "Storage (Level 1)"]
      totalQuantity := 15, quantityBySource := [("Storage (Level 1)", 10)] }
    (by decide)
  simp at h

/-- Claim C1, witness: the amended invariant evaluated on the Storage
module of claim C8, whose two labels are distinct. -/
theorem buildReferenceCount_entry_invariants_witness :
    ({ count := 2, sources := ["Storage (Level 1)", "Storage (Level 2)"]
       totalQuantity := 15
       quantityBySource := [("Storage (Level 1)", 5), ("Storage (Level 2)", 10)] }
        : ReferenceDetails).count
      = ({ count := 2, sources := ["Storage (Level 1)", "Storage (Level 2)"]
           totalQuantity := 15
           quantityBySource := [("Storage (Level 1)", 5), ("Storage (Level 2)", 10)] }
            : ReferenceDetails).sources.length ∧
    (({ count := 2, sources := ["Storage (Level 1)", "Storage (Level 2)"]
        totalQuantity := 15
        quantityBySource := [("Storage (Level 1)", 5), ("Storage (Level 2)", 10)] }
         : ReferenceDetails).sources.Nodup →
      ({ count := 2, sources := ["Storage (Level 1)", "Storage (Level 2)"]
         totalQuantity := 15
         quantityBySource := [("Storage (Level 1)", 5), ("Storage (Level 2)", 10)] }
          : ReferenceDetails).totalQuantity
        = (({ count := 2, sources := ["Storage (Level 1)", "Storage (Level 2)"]
              totalQuantity := 15
              quantityBySource := [("Storage (Level 1)", 5), ("Storage (Level 2)", 10)] }
               : ReferenceDetails).quantityBySource.map Prod.snd).sum) :=
  buildReferenceCount_entry_invariants [storageModule] [] [] "item-1" _ (by decide)

/-- Claim C3: the reference map built by `buildReferenceCount` is exactly
the one determined by folding the occurrence list that visits every level
of every module, then every phase of every project, then every quest's
required items (quests without required items contributing nothing), each
quest requirement labelled `"<quest.name.en> (Quest)"` — see
`occurrences`, `occsFor` and `entryFor` for the traversal order and the
per-item aggregation. -/
theorem buildReferenceCount_fixed_traversal (hideoutModules : List HideoutModule)
    (projects : List Project) (quests : List Quest) (i : String) :
    getKey? (buildReferenceCount hideoutModules projects quests) i
      = entryFor (occsFor i (occurrences hideoutModules projects quests)) :=
  getKey?_buildReferenceCount hideoutModules projects quests i

/-- Claim C8: a module named Storage with two levels requiring `item-1`
with quantities 5 and 10 yields the entry with count 2, totalQuantity 15
and sources `["Storage (Level 1)", "Storage (Level 2)"]`. -/
theorem buildReferenceCount_storage_example :
    getKey? (buildReferenceCount [storageModule] [] []) "item-1"
      = some { count := 2, sources := ["Storage (Level 1)", "Storage (Level 2)"]
               totalQuantity := 15
               quantityBySource := [("Storage (Level 1)", 5), ("Storage (Level 2)", 10)] } := by
  decide

/-- Claim C10: in every stored entry the keys of `quantityBySource` are
exactly the labels occurring in `sources` (as sets: every listed source
has a recorded quantity and there are no stray keys), and every stored
entry has count at least 1. -/
theorem buildReferenceCount_keys_and_count_pos (hideoutModules : List HideoutModule)
    (projects : List Project) (quests : List Quest) (i : String)
    (d : ReferenceDetails)
    (h : getKey? (buildReferenceCount hideoutModules projects quests) i = some d) :
    (∀ l, l ∈ d.quantityBySource.map Prod.fst ↔ l ∈ d.sources) ∧ 1 ≤ d.count := by
  rw [getKey?_buildReferenceCount] at h
  obtain ⟨hne, hd⟩ := entryFor_eq_some h
  subst hd
  constructor
  · intro l
    have := mem_keys_foldl_setKey
      (occsFor i (occurrences hideoutModules projects quests)) [] l
    simpa [detailsOfOccs] using this
  · have : 0 < (occsFor i (occurrences hideoutModules projects quests)).length :=
      List.length_pos.mpr hne
    simpa [detailsOfOccs] using this

/-- Claim C10, witness: evaluated on the Storage module of claim C8. -/
theorem buildReferenceCount_keys_and_count_pos_witness :
    (∀ l, l ∈ (({ count := 2, sources := ["Storage (Level 1)", "Storage (Level 2)"]
                  totalQuantity := 15
                  quantityBySource := [("Storage (Level 1)", 5), ("Storage (Level 2)", 10)] }
                   : ReferenceDetails).quantityBySource.map Prod.fst)
        ↔ l ∈ ({ count := 2, sources := ["Storage (Level 1)", "Storage (Level 2)"]
                 totalQuantity := 15
                 quantityBySource := [("Storage (Level 1)", 5), ("Storage (Level 2)", 10)] }
                  : ReferenceDetails).sources) ∧
      1 ≤ ({ count := 2, sources := ["Storage (Level 1)", "Storage (Level 2)"]
             totalQuantity := 15
             quantityBySource := [("Storage (Level 1)", 5), ("Storage (Level 2)", 10)] }
              : ReferenceDetails).count :=
  buildReferenceCount_keys_and_count_pos [storageModule] [] [] "item-1" _ (by decide)

/-- The direct-match test of `filterItemsByName`
(`src/lib/searchUtils.ts`): the item's own display name, lowercased,
contains the lowercased query. -/
def itemNameMatches (lq : String) (it : Item) : Bool :=
  strIncludes (strToLower it.name.en) lq

/-- Modelled from the spec: `findItemsRequiredBySource` of the final
`searchUtils.ts` is absent from the snapshot (only its tests and callers
are present); per spec §4.5 step 1 it collects, for every
module/project/quest whose own display name contains the lowercased
query, every item id referenced by any of its requirement lists
(module: all levels; project: all phases; quest: required items only). -/
def findItemsRequiredBySource (hideoutModules : List HideoutModule)
    (projects : List Project) (quests : List Quest) (lq : String) : List String :=
  (hideoutModules.flatMap fun md =>
    if strIncludes (strToLower md.name.en) lq then
      md.levels.flatMap fun lv => lv.requirementItemIds.map (·.itemId)
    else [])
  ++ (projects.flatMap fun p =>
    if strIncludes (strToLower p.name.en) lq then
      p.phases.flatMap fun ph => ph.requirementItemIds.map (·.itemId)
    else [])
  ++ (quests.flatMap fun q =>
    if strIncludes (strToLower q.name.en) lq then
      (q.requiredItemIds.getD []).map (·.itemId)
    else [])

/-- Keep only the first item carrying each id, scanning left to right
with the set of already-seen ids. -/
def dedupById : List Item → List String → List Item
  | [], _ => []
  | it :: rest, seen =>
    if seen.contains it.id then dedupById rest seen
    else it :: dedupById rest (it.id :: seen)

/-- Modelled from the spec: the indirect-match stage of
`filterItemsByName(items, searchQuery, hideoutModules?, projects?,
quests?)` belongs to the final `searchUtils.ts` (spec §4.5 steps 1–3,
exercised by its test suite and called with five arguments from
`App.svelte`, but absent from the snapshot) — the name matches come
first, then the items required by a query-matching source, and
duplicates are removed by item id.  The empty/whitespace-query guard,
the lowercasing and the name-containment test are embedded from the copy
in `src/src/lib/searchUtils.ts`. -/
def filterItemsByName (items : List Item) (searchQuery : String)
    (hideoutModules : List HideoutModule) (projects : List Project)
    (quests : List Quest) : List Item :=
  if strTrim searchQuery = "" then items
  else
    let lq := strToLower searchQuery
    let directMatches := items.filter (itemNameMatches lq)
    let sourceIds := findItemsRequiredBySource hideoutModules projects quests lq
    let sourceItems := items.filter (fun it => sourceIds.contains it.id)
    dedupById (directMatches ++ sourceItems) []

theorem dedupById_append_of_fresh (xs : List Item) :
    ∀ (ys : List Item) (seen : List String), (xs.map Item.id).Nodup →
    (∀ x ∈ xs, x.id ∉ seen) →
    dedupById (xs ++ ys) seen
      = xs ++ dedupById ys (xs.reverse.map Item.id ++ seen) := by
  induction xs with
  | nil => intro ys seen _ _; simp
  | cons x xs' ih =>
    intro ys seen hnd hfresh
    have hx : seen.contains x.id = false := by
      simpa using hfresh x (List.mem_cons_self x xs')
    have hnds : x.id ∉ xs'.map Item.id ∧ (xs'.map Item.id).Nodup := by
      simpa [List.nodup_cons] using hnd
    have hfresh' : ∀ x' ∈ xs', x'.id ∉ x.id :: seen := by
      intro x' hx'
      have h1 : x'.id ∉ seen := hfresh x' (List.mem_cons_of_mem x hx')
      have h2 : x'.id ≠ x.id := fun e => hnds.1 (e ▸ List.mem_map_of_mem Item.id hx')
      simp [h1, h2]
    rw [List.cons_append]
    show (if seen.contains x.id then _ else _) = _
    rw [hx]
    simp only [Bool.false_eq_true, if_false, ih ys (x.id :: seen) hnds.2 hfresh']
    simp

theorem dedupById_eq_filter (ys : List Item) :
    ∀ seen : List String, (ys.map Item.id).Nodup →
    dedupById ys seen = ys.filter (fun y => !(seen.contains y.id)) := by
  induction ys with
  | nil => intro seen _; rfl
  | cons y ys' ih =>
    intro seen hnd
    have hnds : y.id ∉ ys'.map Item.id ∧ (ys'.map Item.id).Nodup := by
      simpa [List.nodup_cons] using hnd
    by_cases hy : y.id ∈ seen
    · have hc : seen.contains y.id = true := by simpa using hy
      show (if seen.contains y.id then _ else _) = _
      rw [hc, if_pos rfl, ih seen hnds.2]
      simp [List.filter_cons, hc, hy]
    · have hc : seen.contains y.id = false := by simpa using hy
      show (if seen.contains y.id then _ else _) = _
      rw [hc]
      simp only [Bool.false_eq_true, if_false, ih (y.id :: seen) hnds.2]
      rw [List.filter_cons]
      simp only [hc, Bool.not_false, if_pos rfl]
      congr 1
      apply List.filter_congr
      intro y' hy'
      have h2 : y'.id ≠ y.id := fun e => hnds.1 (e ▸ List.mem_map_of_mem Item.id hy')
      simp [h2]

theorem mem_map_id_filter_iff (items : List Item) (p : Item → Bool)
    (hids : (items.map Item.id).Nodup) (b : Item) (hb : b ∈ items) :
    b.id ∈ (items.filter p).map Item.id ↔ p b = true := by
  constructor
  · intro h
    obtain ⟨a, ha, hab⟩ := List.mem_map.mp h
    have hamem := List.mem_of_mem_filter ha
    have : a = b := List.inj_on_of_nodup_map hids hamem hb hab
    exact this ▸ (List.of_mem_filter ha)
  · intro h
    exact List.mem_map_of_mem Item.id (List.mem_filter.mpr ⟨hb, h⟩)

/-- An item with the defaults of the test helpers; only the id and the
English name vary in the scenarios below. -/
def mkItem (id nameEn : String) : Item :=
  { id := id, name := { en := nameEn, other := [] }
    description := { en := "Test Description", other := [] }
    type' := "Basic Material", rarity := "Common", value := 100, weightKg := 1
    stackSize := 100, imageFilename := "", updatedAt := none
    recyclesInto := none, salvagesInto := none, foundIn := none
    recipe := none, craftBench := none }

/-- A module named Storage Unit whose level 1 requires `item-2`. -/
def storageUnitModule : HideoutModule :=
  { id := "module-1", name := { en := "Storage Unit", other := [] }, maxLevel := 1
    levels := [ { level := 1, requirementItemIds := [⟨"item-2", 5⟩]
                  otherRequirements := none } ] }

/-- Claim C2: on a non-blank query, the matcher returns the direct name
matches first (in input order), followed by the items that do not match
by name but are required by a module/project/quest whose display name
contains the query (in input order); an item satisfying both criteria
appears exactly once, inside the direct group — the result is exactly
the direct filter concatenated with the not-direct-but-referenced
filter. -/
theorem filterItemsByName_direct_then_indirect (items : List Item)
    (searchQuery : String) (hideoutModules : List HideoutModule)
    (projects : List Project) (quests : List Quest)
    (hq : strTrim searchQuery ≠ "")
    (hids : (items.map Item.id).Nodup) :
    filterItemsByName items searchQuery hideoutModules projects quests
      = items.filter (itemNameMatches (strToLower searchQuery))
        ++ items.filter (fun it =>
             !(itemNameMatches (strToLower searchQuery) it)
             && (findItemsRequiredBySource hideoutModules projects quests
                  (strToLower searchQuery)).contains it.id) := by
  unfold filterItemsByName
  rw [if_neg hq]
  have hndA : ((items.filter (itemNameMatches (strToLower searchQuery))).map
      Item.id).Nodup :=
    List.Nodup.sublist ((List.filter_sublist items).map Item.id) hids
  have hndB : ((items.filter (fun it =>
      (findItemsRequiredBySource hideoutModules projects quests
        (strToLower searchQuery)).contains it.id)).map Item.id).Nodup :=
    List.Nodup.sublist ((List.filter_sublist items).map Item.id) hids
  rw [dedupById_append_of_fresh _ _ [] hndA (by simp)]
  congr 1
  rw [dedupById_eq_filter _ _ hndB, List.filter_filter]
  apply List.filter_congr
  intro it hit
  have hiff : it.id ∈ ((items.filter
        (itemNameMatches (strToLower searchQuery))).reverse.map Item.id ++ [])
      ↔ itemNameMatches (strToLower searchQuery) it = true := by
    rw [List.append_nil, List.map_reverse, List.mem_reverse]
    exact mem_map_id_filter_iff items _ hids it hit
  have hKP : ((items.filter
      (itemNameMatches (strToLower searchQuery))).reverse.map Item.id
        ++ []).contains it.id = itemNameMatches (strToLower searchQuery) it := by
    by_cases hp : itemNameMatches (strToLower searchQuery) it = true
    · rw [hp]
      simpa using hiff.mpr hp
    · have hp' : itemNameMatches (strToLower searchQuery) it = false := by
        simpa using hp
      rw [hp']
      simpa using (fun hin => hp (hiff.mp hin) : it.id ∉ _)
  rw [hKP, Bool.and_comm]

/-- Claim C2, witness: the prioritisation scenario of the test suite —
a Storage Box item matching by name and a Random Item required by the
Storage Unit module, queried with storage. -/
theorem filterItemsByName_direct_then_indirect_witness :
    filterItemsByName [mkItem "item-1" "Storage Box", mkItem "item-2" "Random Item"]
        "storage" [storageUnitModule] [] []
      = [mkItem "item-1" "Storage Box", mkItem "item-2" "Random Item"].filter
          (itemNameMatches (strToLower "storage"))
        ++ [mkItem "item-1" "Storage Box", mkItem "item-2" "Random Item"].filter
            (fun it => !(itemNameMatches (strToLower "storage") it)
              && (findItemsRequiredBySource [storageUnitModule] [] []
                   (strToLower "storage")).contains it.id) :=
  filterItemsByName_direct_then_indirect _ _ _ _ _ (by decide) (by decide)

/-- Claim C9: on an empty or whitespace-only query the matcher returns
the input item list unchanged, in the same order. -/
theorem filterItemsByName_blank_query (items : List Item) (searchQuery : String)
    (hideoutModules : List HideoutModule) (projects : List Project)
    (quests : List Quest) (h : strTrim searchQuery = "") :
    filterItemsByName items searchQuery hideoutModules projects quests = items := by
  simp [filterItemsByName, h]

/-- Claim C9, witness: a whitespace-only query over two items. -/
theorem filterItemsByName_blank_query_witness :
    filterItemsByName [mkItem "item-1" "Iron", mkItem "item-2" "Steel"]
        "   " [] [] []
      = [mkItem "item-1" "Iron", mkItem "item-2" "Steel"] :=
  filterItemsByName_blank_query _ _ _ _ _ (by decide)

/-- What one HTTP attempt yields: a parsed JSON body, or an error status
with its status text (a transport failure is folded into the 5xx class,
as the spec treats both identically). -/
inductive HttpResponse (α : Type) where
  | ok (payload : α)
  | httpError (status : Nat) (statusText : String)
  deriving DecidableEq, Repr

/-- The fetcher's error taxonomy (spec §7): a terminal client error, or
retryable errors persisted past the retry budget, carrying the last
observed status and message. -/
inductive FetchError where
  | network (status : Nat) (statusText : String)
  | exhaustedRetries (status : Nat) (statusText : String)
  deriving DecidableEq, Repr

/-- The fixed total attempt budget of the fetcher. -/
def maxFetchAttempts : Nat := 3

/-- Backoff before the retry with index `attemptIdx`:
`2 ^ attemptIdx` seconds, in milliseconds. -/
def retryDelayMs (attemptIdx : Nat) : Nat := 1000 * 2 ^ attemptIdx

/-- One run of the retry loop from attempt `i` with `remaining` attempts
allowed, against a stubbed network that answers attempt `n` with
`responses n`.  Returns the outcome, the number of calls made, and the
list of waits (in ms) taken between attempts. -/
def runRetry {α : Type} (responses : Nat → HttpResponse α) :
    Nat → Nat → Except FetchError α × Nat × List Nat
  | _, 0 => (.error (.exhaustedRetries 0 ""), 0, [])
  | i, remaining + 1 =>
    match responses i with
    | .ok p => (.ok p, 1, [])
    | .httpError st msg =>
      if st < 500 then (.error (.network st msg), 1, [])
      else if remaining = 0 then (.error (.exhaustedRetries st msg), 1, [])
      else
        let next := runRetry responses (i + 1) remaining
        (next.1, next.2.1 + 1, retryDelayMs i :: next.2.2)

/-- Modelled from the spec: the resilient fetcher of the final
`dataLoader.ts` is absent from the snapshot (only its tests are present;
the copies in the snapshot predate retries).  Per spec §4.1 and the
`dataLoader.test.ts` retry suite: attempt the request; a 4xx response is
terminal and raised immediately; a 5xx response (or transport failure)
waits `2 ^ attemptIndex` seconds and retries, up to 3 total attempts,
after which an exhausted-retries error carries the last observed
status/message. -/
def fetchWithRetry {α : Type} (responses : Nat → HttpResponse α) :
    Except FetchError α × Nat × List Nat :=
  runRetry responses 0 maxFetchAttempts

/-- Claim C4: a 4xx answer fails immediately with exactly one call and
no waits; 500, 500 then 200 succeeds with exactly three calls and waits
of 1s then 2s; 5xx on all three attempts exhausts the budget after three
calls, raising the exhausted-retries error with the last status and
message. -/
theorem fetchWithRetry_policy {α : Type} (responses : Nat → HttpResponse α) :
    (∀ st msg, 400 ≤ st → st < 500 → responses 0 = .httpError st msg →
      fetchWithRetry responses = (.error (.network st msg), 1, [])) ∧
    (∀ (p : α) st₀ m₀ st₁ m₁, 500 ≤ st₀ → 500 ≤ st₁ →
      responses 0 = .httpError st₀ m₀ → responses 1 = .httpError st₁ m₁ →
      responses 2 = .ok p →
      fetchWithRetry responses = (.ok p, 3, [1000, 2000])) ∧
    (∀ st₀ m₀ st₁ m₁ st₂ m₂, 500 ≤ st₀ → 500 ≤ st₁ → 500 ≤ st₂ →
      responses 0 = .httpError st₀ m₀ → responses 1 = .httpError st₁ m₁ →
      responses 2 = .httpError st₂ m₂ →
      fetchWithRetry responses
        = (.error (.exhaustedRetries st₂ m₂), 3, [1000, 2000])) := by
  refine ⟨?_, ?_, ?_⟩
  · intro st msg _ h5 h0
    simp [fetchWithRetry, maxFetchAttempts, runRetry, h0, h5]
  · intro p st₀ m₀ st₁ m₁ hs₀ hs₁ h0 h1 h2
    simp [fetchWithRetry, maxFetchAttempts, runRetry, h0, h1, h2,
      Nat.not_lt.mpr hs₀, Nat.not_lt.mpr hs₁, retryDelayMs]
  · intro st₀ m₀ st₁ m₁ st₂ m₂ hs₀ hs₁ hs₂ h0 h1 h2
    simp [fetchWithRetry, maxFetchAttempts, runRetry, h0, h1, h2,
      Nat.not_lt.mpr hs₀, Nat.not_lt.mpr hs₁, Nat.not_lt.mpr hs₂, retryDelayMs]

/-- Claim C4, witness: a stub answering 404 fails in one call; a stub
answering 500, 500, 200 succeeds in three calls with 1s and 2s waits. -/
theorem fetchWithRetry_policy_witness :
    fetchWithRetry (fun _ => (HttpResponse.httpError 404 "Not Found" : HttpResponse (List Item)))
        = (.error (.network 404 "Not Found"), 1, []) ∧
    fetchWithRetry (fun i => if i < 2 then HttpResponse.httpError 500 "Server Error"
        else HttpResponse.ok [mkItem "item-1" "Test Item"])
      = (.ok [mkItem "item-1" "Test Item"], 3, [1000, 2000]) :=
  ⟨(fetchWithRetry_policy _).1 404 "Not Found" (by decide) (by decide) rfl,
   (fetchWithRetry_policy _).2.1 [mkItem "item-1" "Test Item"]
     500 "Server Error" 500 "Server Error" (by decide) (by decide) rfl rfl rfl⟩

/-- The cache TTL: 5 minutes in milliseconds. -/
def cacheTTLMs : Nat := 300000

/-- A stored dataset with its fetch timestamp (spec §3 `CacheEntry`). -/
structure CacheEntry (α : Type) where
  payload : α
  fetchedAtEpochMillis : Nat
  deriving DecidableEq, Repr

/-- Modelled from the spec: the TTL cache of the final `dataLoader.ts`
is absent from the snapshot (only its tests are present).  Per spec §4.2
and §3: an entry is served while `now - fetchedAtEpochMillis` is within
the TTL without any network call; otherwise the fetch runs and its result
is stored with the current timestamp.  The third component counts the
network calls performed (0 on a hit, 1 on a miss or expiry). -/
def getOrFetch {α : Type} (cache : Option (CacheEntry α)) (now : Nat)
    (fetchResult : α) : α × Option (CacheEntry α) × Nat :=
  match cache with
  | some e =>
    if now - e.fetchedAtEpochMillis ≤ cacheTTLMs then (e.payload, some e, 0)
    else (fetchResult, some ⟨fetchResult, now⟩, 1)
  | none => (fetchResult, some ⟨fetchResult, now⟩, 1)

/-- Claim C5: a first load misses and fetches once, storing the payload
with its timestamp; a second load within the TTL makes zero network
calls and returns the cached payload; a load after expiry makes exactly
one call and stores the fresh result with the current timestamp. -/
theorem getOrFetch_ttl {α : Type} (v w : α) (t₀ t₁ : Nat) :
    getOrFetch none t₀ v = (v, some ⟨v, t₀⟩, 1) ∧
    (t₁ - t₀ ≤ cacheTTLMs →
      getOrFetch (some ⟨v, t₀⟩) t₁ w = (v, some ⟨v, t₀⟩, 0)) ∧
    (cacheTTLMs < t₁ - t₀ →
      getOrFetch (some ⟨v, t₀⟩) t₁ w = (w, some ⟨w, t₁⟩, 1)) := by
  refine ⟨rfl, ?_, ?_⟩
  · intro h
    simp [getOrFetch, h]
  · intro h
    simp [getOrFetch, Nat.not_le.mpr h]

/-- Claim C5, witness: a reload 4 minutes after the first load is a hit
with zero calls; a reload 6 minutes after is a miss with one call. -/
theorem getOrFetch_ttl_witness :
    getOrFetch none 0 (7 : Nat) = (7, some ⟨7, 0⟩, 1) ∧
    getOrFetch (some ⟨7, 0⟩) 240000 (8 : Nat) = (7, some ⟨7, 0⟩, 0) ∧
    getOrFetch (some ⟨7, 0⟩) 360000 (8 : Nat) = (8, some ⟨8, 360000⟩, 1) :=
  ⟨(getOrFetch_ttl 7 8 0 240000).1,
   (getOrFetch_ttl 7 8 0 240000).2.1 (by decide),
   (getOrFetch_ttl 7 8 0 360000).2.2 (by decide)⟩

/-- One element of a fetched JSON array, as the per-record predicate of
the validator sees it: either a record of the expected shape carrying its
parsed value, or a malformed record. -/
inductive RawRecord (α : Type) where
  | valid (value : α)
  | malformed (descr : String)
  deriving DecidableEq, Repr

/-- A fetched JSON payload: an array of records, or any non-array JSON
value. -/
inductive RawPayload (α : Type) where
  | arr (records : List (RawRecord α))
  | nonArray (descr : String)
  deriving DecidableEq, Repr

/-- The validator's error taxonomy (spec §7). -/
inductive ValidationError where
  | shapeError (msg : String)
  | emptyResultError (msg : String)
  deriving DecidableEq, Repr

/-- Whether a record passes the per-record shape predicate. -/
def RawRecord.isValid {α : Type} : RawRecord α → Bool
  | .valid _ => true
  | .malformed _ => false

/-- The parsed value of a record that passes validation. -/
def RawRecord.value? {α : Type} : RawRecord α → Option α
  | .valid v => some v
  | .malformed _ => none

/-- The valid records of a fetched array, in order. -/
def validRecords {α : Type} : List (RawRecord α) → List α
  | [] => []
  | .valid v :: rest => v :: validRecords rest
  | .malformed _ :: rest => validRecords rest

/-- How many records are dropped (one warning is emitted per drop). -/
def droppedCount {α : Type} : List (RawRecord α) → Nat
  | [] => 0
  | .valid _ :: rest => droppedCount rest
  | .malformed _ :: rest => droppedCount rest + 1

/-- Modelled from the spec: the dataset validator of the final
`dataLoader.ts` is absent from the snapshot (only its tests are
present).  Per spec §4.3 and the validation tests: a non-array payload is
a shape error; malformed records are dropped with a warning each; if no
valid record remains the fetch fails with an empty-result error;
otherwise exactly the valid records are returned, with the number of
warnings emitted. -/
def validateDataset {α : Type} (raw : RawPayload α) :
    Except ValidationError (List α × Nat) :=
  match raw with
  | .nonArray _ => .error (.shapeError "Invalid data: expected an array")
  | .arr records =>
    if (validRecords records).isEmpty then
      .error (.emptyResultError "No valid records found in response")
    else
      .ok (validRecords records, droppedCount records)

theorem validRecords_eq_filterMap {α : Type} (records : List (RawRecord α)) :
    validRecords records = records.filterMap RawRecord.value? := by
  induction records with
  | nil => rfl
  | cons r rest ih => cases r <;> simp [validRecords, RawRecord.value?, ih]

theorem droppedCount_eq_length_filter {α : Type} (records : List (RawRecord α)) :
    droppedCount records = (records.filter (fun r => !r.isValid)).length := by
  induction records with
  | nil => rfl
  | cons r rest ih =>
    cases r <;> simp [droppedCount, RawRecord.isValid, List.filter_cons, ih]

/-- Claim C6: a non-array payload is a shape error; an array whose every
record fails the per-record predicate is an empty-result error; otherwise
the result is exactly the valid records, with one warning per dropped
malformed record. -/
theorem validateDataset_policy {α : Type} (d : String)
    (records : List (RawRecord α)) :
    validateDataset (α := α) (.nonArray d)
        = .error (.shapeError "Invalid data: expected an array") ∧
    ((∀ r ∈ records, r.isValid = false) →
      validateDataset (.arr records)
        = .error (.emptyResultError "No valid records found in response")) ∧
    (records.filterMap RawRecord.value? ≠ [] →
      validateDataset (.arr records)
        = .ok (records.filterMap RawRecord.value?,
               (records.filter (fun r => !r.isValid)).length)) := by
  refine ⟨rfl, ?_, ?_⟩
  · intro hall
    have hempty : validRecords records = [] := by
      rw [validRecords_eq_filterMap]
      apply List.filterMap_eq_nil_iff.mpr
      intro r hr
      have := hall r hr
      cases r <;> simp_all [RawRecord.isValid, RawRecord.value?]
    simp [validateDataset, hempty]
  · intro hne
    have h1 : (validRecords records).isEmpty = false := by
      rw [validRecords_eq_filterMap]
      cases hfm : records.filterMap RawRecord.value? with
      | nil => exact absurd hfm hne
      | cons a l => rfl
    simp only [validateDataset]
    rw [h1]
    simp [validRecords_eq_filterMap, droppedCount_eq_length_filter]

/-- Claim C6, witness: a non-array payload; an all-malformed array; and
one malformed plus one valid record yielding exactly the valid one with
one warning. -/
theorem validateDataset_policy_witness :
    validateDataset (α := List String) (.nonArray "a JSON object")
        = .error (.shapeError "Invalid data: expected an array") ∧
    validateDataset (α := List String)
        (.arr [.malformed "bad1", .malformed "bad2"])
      = .error (.emptyResultError "No valid records found in response") ∧
    validateDataset (α := List String)
        (.arr [.malformed "bad", .valid ["ok"]])
      = .ok ([["ok"]], 1) :=
  ⟨(validateDataset_policy "a JSON object" ([] : List (RawRecord (List String)))).1,
   (validateDataset_policy "x" [RawRecord.malformed "bad1",
     RawRecord.malformed "bad2"]).2.1 (by decide),
   (validateDataset_policy "x" [RawRecord.malformed "bad",
     RawRecord.valid ["ok"]]).2.2 (by decide)⟩

/-- The record returned by `loadAllData`. -/
structure AllData where
  items : List Item
  hideoutModules : List HideoutModule
  projects : List Project
  quests : List Quest

/-- `loadAllData` from `src/lib/dataLoader.ts`: all four dataset
pipelines are awaited together (`Promise.all`), the combined record is
returned only when all four succeed, and a caught failure is re-thrown
unchanged.  Each argument stands for the settled outcome of one
pipeline. -/
def loadAllData {ε : Type} (eItems : Except ε (List Item))
    (eModules : Except ε (List HideoutModule))
    (eProjects : Except ε (List Project))
    (eQuests : Except ε (List Quest)) : Except ε AllData :=
  match eItems with
  | .error e => .error e
  | .ok items =>
    match eModules with
    | .error e => .error e
    | .ok hideoutModules =>
      match eProjects with
      | .error e => .error e
      | .ok projects =>
        match eQuests with
        | .error e => .error e
        | .ok quests => .ok ⟨items, hideoutModules, projects, quests⟩

/-- Claim C7: `loadAllData` succeeds only when all four pipelines do —
an `ok` result carries exactly the four ok payloads, so no partial result
can be observed — and any failure of the whole load is the unchanged
error of one of the four pipelines. -/
theorem loadAllData_all_or_nothing {ε : Type} (eItems : Except ε (List Item))
    (eModules : Except ε (List HideoutModule))
    (eProjects : Except ε (List Project))
    (eQuests : Except ε (List Quest)) :
    (∀ d, loadAllData eItems eModules eProjects eQuests = .ok d →
      eItems = .ok d.items ∧ eModules = .ok d.hideoutModules ∧
        eProjects = .ok d.projects ∧ eQuests = .ok d.quests) ∧
    (∀ e, loadAllData eItems eModules eProjects eQuests = .error e →
      eItems = .error e ∨ eModules = .error e ∨
        eProjects = .error e ∨ eQuests = .error e) := by
  cases eItems <;> cases eModules <;> cases eProjects <;> cases eQuests <;>
    refine ⟨fun y hy => ?_, fun y hy => ?_⟩ <;>
    simp only [loadAllData] at hy <;> cases hy <;> simp

/-- Claim C7, witness: with the items pipeline failed and the other
three succeeded, the whole load fails with the items pipeline's error. -/
theorem loadAllData_all_or_nothing_witness :
    (Except.error "Failed to fetch items" : Except String (List Item))
        = .error "Failed to fetch items" ∨
    (Except.ok [] : Except String (List HideoutModule))
        = .error "Failed to fetch items" ∨
    (Except.ok [] : Except String (List Project))
        = .error "Failed to fetch items" ∨
    (Except.ok [] : Except String (List Quest))
        = .error "Failed to fetch items" :=
  (loadAllData_all_or_nothing (.error "Failed to fetch items")
    (.ok []) (.ok []) (.ok [])).2 "Failed to fetch items" rfl

end Arcr
